import Mathlib

/-!
# Verification of the panel-inspection client and its processing core

Shallow embedding of the balloon-mapping client scripts of the repository
(`src/unnamed/part_000`, `src/frontend/script.js`) together with a model of
the server-side upload/cache/checkpoint/job protocol, which is described by
the specification but whose FastAPI implementation is not part of the
source tree.  JavaScript objects become Lean structures, dynamic fields
become `Option`s with explicit truthiness tests, and the stateful handlers
become explicit state-passing functions.
-/

namespace PanelApp

/-! ## Balloon data model

A balloon detection as delivered by `/balloon_results`.  In the scripts a
balloon is a JS object whose fields may be missing or falsy, so every field
is optional here; `String(b.balloon_number)` on a missing field yields the
JS string "undefined".  Numeric labels are modelled by their string form. -/

structure BBox where
  x1 : Int
  y1 : Int
  x2 : Int
  y2 : Int
deriving DecidableEq, Repr

structure Balloon where
  balloon_number : Option String
  page : Option Nat
  bbox : Option BBox
deriving DecidableEq, Repr

/-- JS truthiness of a possibly missing string field (`undefined`, `null`
and `""` are falsy). -/
def truthyStr : Option String → Bool
  | some s => !(s == "")
  | none => false

/-- JS truthiness of a possibly missing numeric field (`undefined` and `0`
are falsy). -/
def truthyNat : Option Nat → Bool
  | some n => !(n == 0)
  | none => false

/-- JS truthiness of a possibly missing object field (objects are always
truthy). -/
def truthyBBox : Option BBox → Bool
  | some _ => true
  | none => false

/-- The guard `if (!b.balloon_number || !b.page || !b.bbox)` of
`loadBalloonMapping` in `src/unnamed/part_000` (lines 1199-1203): an entry
is kept only when all three fields are truthy. -/
def validBalloon (b : Balloon) : Bool :=
  truthyStr b.balloon_number && truthyNat b.page && truthyBBox b.bbox

/-- `String(b.balloon_number)`: the key under which a balloon is grouped. -/
def balloonKey (b : Balloon) : String :=
  match b.balloon_number with
  | some s => s
  | none => "undefined"

/-- `b.page` as used by the sort comparator; missing pages never reach the
comparator in the scripts because `loadBalloonMapping` filters them out. -/
def pageOf (b : Balloon) : Nat := b.page.getD 0

/-! ## loadBalloonMapping (production variant, part_000 lines 1179-1215)

`balloonMapping` is a JS object used as a dictionary from the stringified
balloon number to the array of balloons pushed under that key, in result
order.  We model the dictionary as a total function defaulting to `[]`
(a missing key and an empty array are observationally identical for the
`!entries || entries.length === 0` guard of `loadDetails`). -/

def emptyMapping : String → List Balloon := fun _ => []

/-- `if (!balloonMapping[k]) balloonMapping[k] = []; balloonMapping[k].push(b)` -/
def pushBalloon (m : String → List Balloon) (b : Balloon) : String → List Balloon :=
  fun k => if k = balloonKey b then m k ++ [b] else m k

/-- The `d.forEach` loop of the production `loadBalloonMapping`: skip
entries failing the truthiness guard, group the rest by stringified
balloon number. -/
def loadBalloonMapping (d : List Balloon) : String → List Balloon :=
  d.foldl (fun m b => if validBalloon b then pushBalloon m b else m) emptyMapping

/-! ## The checklist-join query (production `loadDetails`, part_000 634-691)

`loadDetails` looks the FIND NUMBER up in `balloonMapping`; an absent or
empty entry list is reported with an alert and an early return (an explicit
empty result), otherwise the entries are sorted ascending by page with
`entries.sort((a, b) => a.page - b.page)` (a stable sort in JS). -/

def pageLE (a b : Balloon) : Prop := pageOf a ≤ pageOf b

instance : DecidableRel pageLE := fun _ _ => Nat.decLe _ _

instance : IsTotal Balloon pageLE := ⟨fun _ _ => Nat.le_total _ _⟩

instance : IsTrans Balloon pageLE := ⟨fun _ _ _ h1 h2 => Nat.le_trans h1 h2⟩

/-- `entries.sort((a, b) => a.page - b.page)` modelled by a stable
insertion sort on the page number. -/
def sortByPage (l : List Balloon) : List Balloon :=
  List.insertionSort pageLE l

/-- The balloon occurrences `loadDetails` presents for a FIND NUMBER `n`
over a balloon-results list `d`. -/
def checklistJoin (d : List Balloon) (n : String) : List Balloon :=
  let entries := loadBalloonMapping d n
  if entries.isEmpty then [] else sortByPage entries

/-! ## Legacy variant (src/frontend/script.js lines 296-301, 253-261)

The oldest front-end keeps a single balloon per key:
`d.forEach(b => balloonMapping[b.balloon_number] = b)`, so each later
occurrence overwrites the earlier one, and `loadDetails` highlights just
that one stored balloon. -/

def loadBalloonMappingLegacy (d : List Balloon) : String → Option Balloon :=
  d.foldl (fun m b => fun k => if k = balloonKey b then some b else m k)
    (fun _ => none)

/-- The occurrences the legacy `loadDetails` can present for a FIND
NUMBER: the single stored balloon, if any. -/
def checklistJoinLegacy (d : List Balloon) (n : String) : List Balloon :=
  match loadBalloonMappingLegacy d n with
  | some b => [b]
  | none => []

/-! ## Lemmas about the grouping fold -/

theorem loadBalloonMapping_go (d : List Balloon) :
    ∀ (m : String → List Balloon) (k : String),
    (d.foldl (fun m b => if validBalloon b then pushBalloon m b else m) m) k
      = m k ++ d.filter (fun b => validBalloon b && (balloonKey b == k)) := by
  induction d with
  | nil => intro m k; simp
  | cons b d ih =>
    intro m k
    by_cases hv : validBalloon b
    · by_cases hk : balloonKey b = k
      · simp only [List.foldl_cons, if_pos hv, ih, List.filter_cons]
        simp [pushBalloon, hk, hv]
      · simp only [List.foldl_cons, if_pos hv, ih, List.filter_cons]
        have hk' : ¬ k = balloonKey b := fun h => hk h.symm
        simp [pushBalloon, hk, hk', hv]
    · simp only [List.foldl_cons, if_neg hv, ih, List.filter_cons]
      simp [hv]

theorem loadBalloonMapping_eq_filter (d : List Balloon) (k : String) :
    loadBalloonMapping d k
      = d.filter (fun b => validBalloon b && (balloonKey b == k)) := by
  simpa [emptyMapping] using loadBalloonMapping_go d emptyMapping k

/-- C8: `loadBalloonMapping` keeps an entry only if it has a truthy
`balloon_number`, `page` and `bbox`; malformed entries are skipped by the
total fold (no exception); and every key maps exactly to the sublist of
valid balloons whose stringified `balloon_number` is that key, which is
non-empty precisely when such an entry occurs in the input. -/
theorem c8_mapping_filters_and_groups (d : List Balloon) (k : String) :
    loadBalloonMapping d k
      = d.filter (fun b => validBalloon b && (balloonKey b == k))
    ∧ (∀ b ∈ loadBalloonMapping d k, validBalloon b = true ∧ balloonKey b = k)
    ∧ (loadBalloonMapping d k ≠ []
        ↔ ∃ b ∈ d, validBalloon b = true ∧ balloonKey b = k) := by
  refine ⟨loadBalloonMapping_eq_filter d k, ?_, ?_⟩
  · intro b hb
    rw [loadBalloonMapping_eq_filter] at hb
    have h := List.of_mem_filter hb
    simp only [Bool.and_eq_true, beq_iff_eq] at h
    exact h
  · rw [loadBalloonMapping_eq_filter, Ne, List.filter_eq_nil_iff]
    push_neg
    simp

/-- C8 witness: a list mixing valid and malformed entries (missing
number, empty number, page 0, missing bbox). -/
def c8Example : List Balloon :=
  [⟨some "12", some 1, some ⟨1, 2, 3, 4⟩⟩,
    ⟨none, some 2, some ⟨1, 2, 3, 4⟩⟩,
    ⟨some "", some 2, some ⟨1, 2, 3, 4⟩⟩,
    ⟨some "12", some 0, some ⟨1, 2, 3, 4⟩⟩,
    ⟨some "7", some 2, none⟩]

theorem c8_mapping_filters_and_groups_witness :
    loadBalloonMapping c8Example "12"
      = c8Example.filter (fun b => validBalloon b && (balloonKey b == "12")) :=
  (c8_mapping_filters_and_groups c8Example "12").1

/-! ## C1: join correctness -/

/-- A sample bbox used in concrete scenarios. -/
def bboxA : BBox := ⟨1, 2, 3, 4⟩

/-- FIND NUMBER 12 detected on page 1. -/
def c1Balloon1 : Balloon := ⟨some "12", some 1, some bboxA⟩

/-- FIND NUMBER 12 detected on page 3. -/
def c1Balloon3 : Balloon := ⟨some "12", some 3, some bboxA⟩

/-- A finalized balloon-results list where FIND NUMBER 12 occurs on pages
1 and 3 (the scenario of spec §8). -/
def c1Example : List Balloon := [c1Balloon1, c1Balloon3]

/-- C1 counterexample: the legacy variant (src/frontend/script.js
296-301) stores only the last balloon per FIND NUMBER, so on a list where
"12" occurs on pages 1 < 3 its join yields the single page-3 entry, not
the two matching entries sorted ascending by page as the claim states. -/
theorem c1_counterexample :
    c1Example.filter (fun b => balloonKey b == "12") = [c1Balloon1, c1Balloon3]
    ∧ checklistJoinLegacy c1Example "12" = [c1Balloon3]
    ∧ checklistJoinLegacy c1Example "12" ≠ [c1Balloon1, c1Balloon3] := by
  refine ⟨?_, ?_, ?_⟩ <;> decide

/-- C1 (amended): in the production client, for every finalized (all
entries valid) balloon-results list and FIND NUMBER `n`, the checklist
join returns a permutation of exactly the balloons whose stringified
`balloon_number` equals `n`; when the matching pages are pairwise
distinct (`p1 < p2 < ... < pk`) the result is strictly ascending by page,
hence those k entries in that order; and zero occurrences yield the
explicit empty result (the alert-and-return path), never an exception. -/
theorem c1_join_correct (d : List Balloon) (n : String)
    (hv : ∀ b ∈ d, validBalloon b = true)
    (hd : (d.filter (fun b => balloonKey b == n)).Pairwise
      (fun a b => pageOf a ≠ pageOf b)) :
    (checklistJoin d n).Perm (d.filter (fun b => balloonKey b == n))
    ∧ (checklistJoin d n).Sorted (fun a b => pageOf a < pageOf b)
    ∧ (d.filter (fun b => balloonKey b == n) = [] → checklistJoin d n = []) := by
  have hfilter : d.filter (fun b => validBalloon b && (balloonKey b == n))
      = d.filter (fun b => balloonKey b == n) := by
    apply List.filter_congr
    intro b hb
    simp [hv b hb]
  have hmap : loadBalloonMapping d n = d.filter (fun b => balloonKey b == n) := by
    rw [loadBalloonMapping_eq_filter, hfilter]
  by_cases hemp : d.filter (fun b => balloonKey b == n) = []
  · have hj : checklistJoin d n = [] := by
      simp [checklistJoin, hmap, hemp]
    rw [hj, hemp]
    exact ⟨List.Perm.refl _, List.sorted_nil, fun _ => rfl⟩
  · have hj : checklistJoin d n
        = sortByPage (d.filter (fun b => balloonKey b == n)) := by
      simp [checklistJoin, hmap, List.isEmpty_iff, hemp]
    have hperm : (checklistJoin d n).Perm
        (d.filter (fun b => balloonKey b == n)) := by
      rw [hj]
      exact List.perm_insertionSort pageLE _
    have hle : (checklistJoin d n).Sorted pageLE := by
      rw [hj]
      exact List.sorted_insertionSort pageLE _
    have hne : (checklistJoin d n).Pairwise (fun a b => pageOf a ≠ pageOf b) :=
      (hperm.pairwise_iff (fun h h2 => h h2.symm)).2 hd
    refine ⟨hperm, ?_, fun h => absurd h hemp⟩
    exact (hle.and hne).imp fun hab => Nat.lt_of_le_of_ne hab.1 hab.2

/-- C1 witness: the amended theorem applied to the concrete two-page
scenario. -/
theorem c1_join_correct_witness :
    (∀ b ∈ c1Example, validBalloon b = true)
    ∧ (c1Example.filter (fun b => balloonKey b == "12")).Pairwise
        (fun a b => pageOf a ≠ pageOf b)
    ∧ ((checklistJoin c1Example "12").Perm
          (c1Example.filter (fun b => balloonKey b == "12"))
        ∧ (checklistJoin c1Example "12").Sorted (fun a b => pageOf a < pageOf b)
        ∧ (c1Example.filter (fun b => balloonKey b == "12") = []
            → checklistJoin c1Example "12" = [])) :=
  ⟨by decide, by decide, c1_join_correct c1Example "12" (by decide) (by decide)⟩

/-! ## C9: GA page navigation

State touched by `loadGA`, `nextPage` and `prevPage`.  The production
variant (part_000 lines 1301-1319) guards on `gaLoaded` and the bounds;
the plain front-end variant (src/frontend/script.js lines 372-384) guards
on the bounds only. -/

structure GAView where
  gaLoaded : Bool
  currentPage : Nat
  totalPages : Nat
deriving DecidableEq, Repr

/-- `loadGA`: `totalPages = d.pages; currentPage = 1; gaLoaded = true`. -/
def loadGAState (pages : Nat) : GAView := ⟨true, 1, pages⟩

/-- part_000: `if (!gaLoaded || currentPage >= totalPages) return; currentPage++`. -/
def nextPage (s : GAView) : GAView :=
  if !s.gaLoaded || s.currentPage ≥ s.totalPages then s
  else { s with currentPage := s.currentPage + 1 }

/-- part_000: `if (!gaLoaded || currentPage <= 1) return; currentPage--`. -/
def prevPage (s : GAView) : GAView :=
  if !s.gaLoaded || s.currentPage ≤ 1 then s
  else { s with currentPage := s.currentPage - 1 }

/-- script.js: `if (currentPage < totalPages) currentPage++`. -/
def nextPageFE (s : GAView) : GAView :=
  if s.currentPage < s.totalPages then { s with currentPage := s.currentPage + 1 }
  else s

/-- script.js: `if (currentPage > 1) currentPage--`. -/
def prevPageFE (s : GAView) : GAView :=
  if s.currentPage > 1 then { s with currentPage := s.currentPage - 1 }
  else s

inductive NavOp where
  | next
  | prev
deriving DecidableEq, Repr

def navStep (s : GAView) : NavOp → GAView
  | .next => nextPage s
  | .prev => prevPage s

def navStepFE (s : GAView) : NavOp → GAView
  | .next => nextPageFE s
  | .prev => prevPageFE s

/-- A sequence of navigation clicks, production variant. -/
def runNav (ops : List NavOp) (s : GAView) : GAView := ops.foldl navStep s

/-- A sequence of navigation clicks, plain front-end variant. -/
def runNavFE (ops : List NavOp) (s : GAView) : GAView := ops.foldl navStepFE s

theorem navStep_inv (s : GAView) (op : NavOp)
    (h1 : 1 ≤ s.currentPage) (h2 : s.currentPage ≤ s.totalPages) :
    1 ≤ (navStep s op).currentPage
    ∧ (navStep s op).currentPage ≤ (navStep s op).totalPages
    ∧ (navStep s op).totalPages = s.totalPages := by
  cases op <;> simp only [navStep, nextPage, prevPage] <;> split <;>
    simp_all <;> omega

theorem navStepFE_inv (s : GAView) (op : NavOp)
    (h1 : 1 ≤ s.currentPage) (h2 : s.currentPage ≤ s.totalPages) :
    1 ≤ (navStepFE s op).currentPage
    ∧ (navStepFE s op).currentPage ≤ (navStepFE s op).totalPages
    ∧ (navStepFE s op).totalPages = s.totalPages := by
  cases op <;> simp only [navStepFE, nextPageFE, prevPageFE] <;> split <;>
    simp_all <;> omega

theorem runNav_inv (ops : List NavOp) :
    ∀ s : GAView, 1 ≤ s.currentPage → s.currentPage ≤ s.totalPages →
    1 ≤ (runNav ops s).currentPage
    ∧ (runNav ops s).currentPage ≤ (runNav ops s).totalPages
    ∧ (runNav ops s).totalPages = s.totalPages := by
  induction ops with
  | nil => intro s h1 h2; exact ⟨h1, h2, rfl⟩
  | cons op ops ih =>
    intro s h1 h2
    have hstep := navStep_inv s op h1 h2
    have := ih (navStep s op) hstep.1 hstep.2.1
    simp only [runNav, List.foldl_cons] at *
    exact ⟨this.1, this.2.1, this.2.2.trans hstep.2.2⟩

theorem runNavFE_inv (ops : List NavOp) :
    ∀ s : GAView, 1 ≤ s.currentPage → s.currentPage ≤ s.totalPages →
    1 ≤ (runNavFE ops s).currentPage
    ∧ (runNavFE ops s).currentPage ≤ (runNavFE ops s).totalPages
    ∧ (runNavFE ops s).totalPages = s.totalPages := by
  induction ops with
  | nil => intro s h1 h2; exact ⟨h1, h2, rfl⟩
  | cons op ops ih =>
    intro s h1 h2
    have hstep := navStepFE_inv s op h1 h2
    have := ih (navStepFE s op) hstep.1 hstep.2.1
    simp only [runNavFE, List.foldl_cons] at *
    exact ⟨this.1, this.2.1, this.2.2.trans hstep.2.2⟩

/-- C9: after a GA with `totalPages = N ≥ 1` is loaded (`currentPage`
initialized to 1), every sequence of `nextPage`/`prevPage` clicks keeps
`1 ≤ currentPage ≤ N` in both script variants, and `nextPage` on the last
page / `prevPage` on page 1 leave the state unchanged. -/
theorem c9_navigation_bounds (N : Nat) (hN : 1 ≤ N) (ops : List NavOp)
    (s t : GAView) (hs : s.gaLoaded = true)
    (hsp : s.currentPage = s.totalPages) (ht : t.currentPage = 1) :
    (1 ≤ (runNav ops (loadGAState N)).currentPage
      ∧ (runNav ops (loadGAState N)).currentPage ≤ N)
    ∧ (1 ≤ (runNavFE ops (loadGAState N)).currentPage
      ∧ (runNavFE ops (loadGAState N)).currentPage ≤ N)
    ∧ (nextPage s = s ∧ nextPageFE s = s)
    ∧ (prevPage t = t ∧ prevPageFE t = t) := by
  have hinit1 : 1 ≤ (loadGAState N).currentPage := le_refl 1
  have hinit2 : (loadGAState N).currentPage ≤ (loadGAState N).totalPages := hN
  have h := runNav_inv ops (loadGAState N) hinit1 hinit2
  have hFE := runNavFE_inv ops (loadGAState N) hinit1 hinit2
  refine ⟨⟨h.1, ?_⟩, ⟨hFE.1, ?_⟩, ⟨?_, ?_⟩, ⟨?_, ?_⟩⟩
  · have := h.2.1; rw [h.2.2] at this; exact this
  · have := hFE.2.1; rw [hFE.2.2] at this; exact this
  · simp [nextPage, hs, hsp]
  · simp [nextPageFE, hsp]
  · simp [prevPage, ht]
  · simp [prevPageFE, ht]

/-- C9 witness: a 3-page GA, a concrete click sequence, and concrete
last-page / first-page states. -/
theorem c9_navigation_bounds_witness :
    1 ≤ 3
    ∧ GAView.gaLoaded ⟨true, 3, 3⟩ = true
    ∧ GAView.currentPage (⟨true, 3, 3⟩ : GAView)
        = GAView.totalPages (⟨true, 3, 3⟩ : GAView)
    ∧ GAView.currentPage (⟨true, 1, 5⟩ : GAView) = 1
    ∧ ((1 ≤ (runNav [NavOp.next, NavOp.next, NavOp.next, NavOp.prev]
          (loadGAState 3)).currentPage
        ∧ (runNav [NavOp.next, NavOp.next, NavOp.next, NavOp.prev]
          (loadGAState 3)).currentPage ≤ 3)
      ∧ (1 ≤ (runNavFE [NavOp.next, NavOp.next, NavOp.next, NavOp.prev]
          (loadGAState 3)).currentPage
        ∧ (runNavFE [NavOp.next, NavOp.next, NavOp.next, NavOp.prev]
          (loadGAState 3)).currentPage ≤ 3)
      ∧ (nextPage ⟨true, 3, 3⟩ = ⟨true, 3, 3⟩
          ∧ nextPageFE ⟨true, 3, 3⟩ = ⟨true, 3, 3⟩)
      ∧ (prevPage ⟨true, 1, 5⟩ = ⟨true, 1, 5⟩
          ∧ prevPageFE ⟨true, 1, 5⟩ = ⟨true, 1, 5⟩)) :=
  ⟨by decide, rfl, rfl, rfl,
    c9_navigation_bounds 3 (by decide)
      [NavOp.next, NavOp.next, NavOp.next, NavOp.prev]
      ⟨true, 3, 3⟩ ⟨true, 1, 5⟩ rfl rfl rfl⟩

/-! ## C10: sanitizeHTML escape/parse round-trip

`sanitizeHTML` (part_000 lines 610-614) is
`div.textContent = str; return div.innerHTML`.  The browser primitive it
relies on is the WHATWG serialization of a text node, which replaces
`&` by `&amp;`, `<` by `&lt;`, `>` by `&gt;` and U+00A0 by `&nbsp;`; the
inverse direction is the HTML tokenizer's character-reference decoding of
text content.  Both primitives are external to the repository and are
modelled here per that platform specification. -/

/-- Serialization of one character of a text node. -/
def escapeChar (c : Char) : List Char :=
  if c = '&' then ['&', 'a', 'm', 'p', ';']
  else if c = '<' then ['&', 'l', 't', ';']
  else if c = '>' then ['&', 'g', 't', ';']
  else if c = Char.ofNat 160 then ['&', 'n', 'b', 's', 'p', ';']
  else [c]

def escapeChars : List Char → List Char
  | [] => []
  | c :: cs => escapeChar c ++ escapeChars cs

/-- `sanitizeHTML` from part_000: serialize the string as text-node HTML. -/
def sanitizeHTML (s : String) : String := ⟨escapeChars s.data⟩

/-- Decoding of a named character reference recognised by the model. -/
def entityChar (name : List Char) : Option Char :=
  if name = ['a', 'm', 'p'] then some '&'
  else if name = ['l', 't'] then some '<'
  else if name = ['g', 't'] then some '>'
  else if name = ['n', 'b', 's', 'p'] then some (Char.ofNat 160)
  else none

/-- State of the text tokenizer: emitted output and, when inside a
character reference, the name accumulated since the `&`. -/
structure TextTokenizer where
  out : List Char
  refBuf : Option (List Char)
deriving DecidableEq, Repr

/-- One step of the HTML text tokenizer (data state / character-reference
state). Unknown references are emitted literally. -/
def tokStep (st : TextTokenizer) (c : Char) : TextTokenizer :=
  match st.refBuf with
  | none =>
    if c = '&' then { st with refBuf := some [] }
    else { st with out := st.out ++ [c] }
  | some buf =>
    if c = ';' then
      match entityChar buf with
      | some ch => { out := st.out ++ [ch], refBuf := none }
      | none => { out := st.out ++ '&' :: (buf ++ [';']), refBuf := none }
    else { st with refBuf := some (buf ++ [c]) }

/-- The text content a browser derives from markup-free HTML text: run
the tokenizer, flushing an unterminated reference literally. -/
def parseTextNode (l : List Char) : List Char :=
  let fin := l.foldl tokStep ⟨[], none⟩
  match fin.refBuf with
  | none => fin.out
  | some buf => fin.out ++ '&' :: buf

/-- Interpreting a string as HTML and reading back its text content. -/
def textContentOf (s : String) : String := ⟨parseTextNode s.data⟩

theorem tokSteps_escapeChar (c : Char) (out : List Char) :
    (escapeChar c).foldl tokStep ⟨out, none⟩ = ⟨out ++ [c], none⟩ := by
  by_cases h1 : c = '&'
  · subst h1; simp [escapeChar, tokStep, entityChar]
  · by_cases h2 : c = '<'
    · subst h2; simp [escapeChar, tokStep, entityChar]
    · by_cases h3 : c = '>'
      · subst h3; simp [escapeChar, tokStep, entityChar]
      · by_cases h4 : c = Char.ofNat 160
        · subst h4; simp [escapeChar, tokStep, entityChar]
        · simp [escapeChar, h1, h2, h3, h4, tokStep]

theorem tokSteps_escapeChars (l : List Char) :
    ∀ out : List Char,
    (escapeChars l).foldl tokStep ⟨out, none⟩ = ⟨out ++ l, none⟩ := by
  induction l with
  | nil => intro out; simp [escapeChars]
  | cons c cs ih =>
    intro out
    simp only [escapeChars, List.foldl_append, tokSteps_escapeChar, ih]
    simp

theorem escapeChars_no_lt (l : List Char) :
    ∀ c ∈ escapeChars l, c ≠ '<' := by
  induction l with
  | nil => intro c hc; simp [escapeChars] at hc
  | cons b bs ih =>
    intro c hc
    simp only [escapeChars, List.mem_append] at hc
    rcases hc with hc | hc
    · by_cases h1 : b = '&'
      · subst h1; simp [escapeChar] at hc
        rcases hc with h | h | h | h | h <;> simp [h]
      · by_cases h2 : b = '<'
        · subst h2; simp [escapeChar] at hc
          rcases hc with h | h | h | h <;> simp [h]
        · by_cases h3 : b = '>'
          · subst h3; simp [escapeChar] at hc
            rcases hc with h | h | h | h <;> simp [h]
          · by_cases h4 : b = Char.ofNat 160
            · subst h4; simp [escapeChar] at hc
              rcases hc with h | h | h | h | h | h <;> simp [h]
            · simp [escapeChar, h1, h2, h3, h4] at hc
              subst hc
              intro h
              exact h2 h
    · exact ih c hc

/-! ### Attribute context

`renderChecklist` (part_000 line 551) also interpolates
`sanitizeHTML(item.remarks || "")` into a double-quoted attribute:
`value="${...}"`.  Per the WHATWG parser a double-quoted attribute value
runs to the first `"` (with character references decoded); every
character after that close quote is consumed as further in-tag markup
(attribute names, handlers, ...).  `sanitizeHTML` does not escape `"`,
so this context behaves differently from the text-node context above. -/

/-- Split the serialized characters at the first `"`: the raw attribute
value and the leftover the parser treats as in-tag markup. -/
def attrCloseSplit : List Char → List Char × List Char
  | [] => ([], [])
  | c :: cs =>
    if c = '"' then ([], cs)
    else
      let p := attrCloseSplit cs
      (c :: p.1, p.2)

/-- The value the browser assigns to the `value="..."` attribute: the
characters up to the first `"`, with character references decoded. -/
def attrValueOf (s : String) : String :=
  ⟨parseTextNode (attrCloseSplit s.data).1⟩

/-- The characters after the attribute's close quote, which the parser
interprets as further tag markup. -/
def attrLeftoverOf (s : String) : String := ⟨(attrCloseSplit s.data).2⟩

/-- A remarks value containing a double quote. -/
def remarksExample : String := "5\" onfocus=\"alert(1)"

/-- C10 counterexample: `sanitizeHTML` leaves `"` unchanged, so the
remarks value `5" onfocus="alert(1)` rendered into the `value="..."`
attribute of the remarks input (part_000 line 551) does not appear
verbatim: the attribute value is truncated to `5` and the remainder is
interpreted as attribute markup (an `onfocus` handler), falsifying the
claim for remarks at this concrete input. -/
theorem c10_counterexample :
    sanitizeHTML remarksExample = remarksExample
    ∧ attrValueOf (sanitizeHTML remarksExample) = "5"
    ∧ attrValueOf (sanitizeHTML remarksExample) ≠ remarksExample
    ∧ attrLeftoverOf (sanitizeHTML remarksExample) = " onfocus=\"alert(1)"
    ∧ attrLeftoverOf (sanitizeHTML remarksExample) ≠ "" := by
  refine ⟨?_, ?_, ?_, ?_, ?_⟩ <;> decide

theorem attrCloseSplit_no_quote (l : List Char)
    (h : ∀ c ∈ l, c ≠ '"') : attrCloseSplit l = (l, []) := by
  induction l with
  | nil => rfl
  | cons c cs ih =>
    have hc : ¬ c = '"' := h c (List.mem_cons_self c cs)
    have ihcs := ih fun d hd => h d (List.mem_cons_of_mem c hd)
    simp [attrCloseSplit, hc, ihcs]

theorem escapeChars_no_quote (l : List Char) (hl : ∀ c ∈ l, c ≠ '"') :
    ∀ c ∈ escapeChars l, c ≠ '"' := by
  induction l with
  | nil => intro c hc; simp [escapeChars] at hc
  | cons b bs ih =>
    intro c hc
    simp only [escapeChars, List.mem_append] at hc
    rcases hc with hc | hc
    · by_cases h1 : b = '&'
      · subst h1; simp [escapeChar] at hc
        rcases hc with h | h | h | h | h <;> simp [h]
      · by_cases h2 : b = '<'
        · subst h2; simp [escapeChar] at hc
          rcases hc with h | h | h | h <;> simp [h]
        · by_cases h3 : b = '>'
          · subst h3; simp [escapeChar] at hc
            rcases hc with h | h | h | h <;> simp [h]
          · by_cases h4 : b = Char.ofNat 160
            · subst h4; simp [escapeChar] at hc
              rcases hc with h | h | h | h | h | h <;> simp [h]
            · have hb := hl b (List.mem_cons_self b bs)
              simp [escapeChar, h1, h2, h3, h4] at hc
              subst hc
              exact hb
    · exact ih (fun d hd => hl d (List.mem_cons_of_mem b hd)) c hc

/-- C10 (amended): interpreting `sanitizeHTML s` as HTML in element
(text) context yields text content exactly equal to `s`, and the escaped
string contains no `<`, so no tag can form — the FIND NUMBER and
PART DESCRIPTION values rendered into checklist cells appear verbatim
and are never interpreted as markup.  In the double-quoted `value`
attribute that receives the remarks value, the same holds only for
strings without a `"`: there the attribute round-trips and leaves no
extra tag markup.  (A remarks value containing `"` escapes the
attribute: see the counterexample.) -/
theorem c10_sanitize_contexts (s t : String)
    (ht : t.data.all (fun c => !(c == '"')) = true) :
    textContentOf (sanitizeHTML s) = s
    ∧ (sanitizeHTML s).data.all (fun c => !(c == '<')) = true
    ∧ attrValueOf (sanitizeHTML t) = t
    ∧ attrLeftoverOf (sanitizeHTML t) = "" := by
  have ht' : ∀ c ∈ t.data, c ≠ '"' := by
    rw [List.all_eq_true] at ht
    intro c hc
    simpa using ht c hc
  have hsplit : attrCloseSplit (escapeChars t.data) = (escapeChars t.data, []) :=
    attrCloseSplit_no_quote _ (escapeChars_no_quote t.data ht')
  refine ⟨?_, ?_, ?_, ?_⟩
  · show String.mk (parseTextNode (escapeChars s.data)) = s
    rw [parseTextNode]
    simp only [tokSteps_escapeChars s.data []]
    simp
  · rw [List.all_eq_true]
    intro c hc
    simpa using escapeChars_no_lt s.data c hc
  · show String.mk (parseTextNode (attrCloseSplit (escapeChars t.data)).1) = t
    rw [hsplit, parseTextNode]
    simp only [tokSteps_escapeChars t.data []]
    simp
  · show String.mk (attrCloseSplit (escapeChars t.data)).2 = ""
    rw [hsplit]

/-- C10 witness: element context on a string holding every escaped
character, attribute context on a quote-free remarks value. -/
theorem c10_sanitize_contexts_witness :
    (String.data "a<b>&c").all (fun c => !(c == '"')) = true
    ∧ (textContentOf (sanitizeHTML "a<b>&amp;c") = "a<b>&amp;c"
      ∧ (sanitizeHTML "a<b>&amp;c").data.all (fun c => !(c == '<')) = true
      ∧ attrValueOf (sanitizeHTML "a<b>&c") = "a<b>&c"
      ∧ attrLeftoverOf (sanitizeHTML "a<b>&c") = "") :=
  ⟨by decide, c10_sanitize_contexts "a<b>&amp;c" "a<b>&c" (by decide)⟩

/-! ## C7: the content hash computed by forceReprocessGA

`forceReprocessGA` (part_000 lines 1031-1051) reads the file bytes,
digests them with the browser primitive `crypto.subtle.digest('MD5', ..)`
and hex-encodes the digest:
`hashArray.map(b => b.toString(16).padStart(2, '0')).join('')`. -/

/-- Modelled from the spec: the `crypto.subtle.digest('MD5', ...)`
browser primitive is not part of the source tree; per the spec
`computeHash` is a deterministic pure function of the bytes with a
fixed-size digest (MD5: 16 bytes, each < 256).  Stand-in mixing function
with that type and output shape. -/
def md5Digest (bytes : List Nat) : List Nat :=
  (List.range 16).map
    (fun i => bytes.foldl (fun a b => (a * 31 + b + i) % 256) (i * 7 % 256))

/-- A hex digit (`0`-`9`, `a`-`f`) as produced by `toString(16)`. -/
def hexChar (d : Nat) : Char :=
  if d < 10 then Char.ofNat (48 + d) else Char.ofNat (87 + d)

/-- `b.toString(16).padStart(2, '0')` on a `Uint8Array` element: one hex
digit zero-padded, or two hex digits. -/
def hexByte (b : Nat) : String :=
  if b < 16 then String.mk ['0', hexChar b]
  else String.mk [hexChar (b / 16), hexChar (b % 16)]

/-- `array.join('')`. -/
def joinAll : List String → String
  | [] => ""
  | s :: r => s ++ joinAll r

/-- The content hash of the uploaded file bytes. -/
def fileHash (bytes : List Nat) : String :=
  joinAll ((md5Digest bytes).map hexByte)

theorem hexByte_length (b : Nat) : (hexByte b).length = 2 := by
  rw [hexByte]; split <;> rfl

theorem joinAll_map_hexByte_length (l : List Nat) :
    (joinAll (l.map hexByte)).length = 2 * l.length := by
  induction l with
  | nil => rfl
  | cons b r ih =>
    simp only [List.map_cons, joinAll, String.length_append, hexByte_length,
      ih, List.length_cons]
    ring

theorem md5Digest_length (bytes : List Nat) : (md5Digest bytes).length = 16 := by
  simp [md5Digest]

/-- C7: the content hash is a pure deterministic function of the uploaded
bytes — identical bytes yield identical hashes — and its output length is
32 hex characters regardless of the input size. -/
theorem c7_hash_deterministic (b1 b2 : List Nat) (h : b1 = b2) :
    fileHash b1 = fileHash b2 ∧ (fileHash b1).length = 32 := by
  subst h
  refine ⟨rfl, ?_⟩
  rw [fileHash, joinAll_map_hexByte_length, md5Digest_length]

/-- C7 witness: two byte-identical three-byte uploads. -/
theorem c7_hash_deterministic_witness :
    ([1, 2, 3] : List Nat) = [1, 2, 3]
    ∧ (fileHash [1, 2, 3] = fileHash [1, 2, 3]
        ∧ (fileHash [1, 2, 3]).length = 32) :=
  ⟨rfl, c7_hash_deterministic [1, 2, 3] [1, 2, 3] rfl⟩

/-! ## Server-side model

The FastAPI backend (ContentAddresser, CacheStore, ProgressCheckpoint,
JobManager, upload decision protocol) belongs to this repository but is
not under the source tree; only its client scripts are.  Definitions in
this section are therefore modelled from the spec and say so in their doc
comments.  The client-side handlers that consume them are translated from
the scripts. -/

/-- Modelled from the spec: a finalized, immutable cache entry
`{hash, page_count, detections}` (§3). -/
structure CacheEntry where
  page_count : Nat
  detections : List Balloon
deriving DecidableEq, Repr

/-- Modelled from the spec: a durable progress checkpoint
`{hash, processed_pages, total_pages, balloons_so_far, last_update}`
(§3). -/
structure Checkpoint where
  processed_pages : Nat
  total_pages : Nat
  balloons_so_far : List Balloon
  last_update : Nat
deriving DecidableEq, Repr

/-- The checkpoint summary carried by a `resumable` response (§4.6 step
3) and displayed by `showResumeDialog` (part_000 lines 810-935). -/
structure ProgressSummary where
  processed_pages : Nat
  total_pages : Nat
  balloons_so_far : Nat
  last_update : Nat
deriving DecidableEq, Repr

def checkpointSummary (cp : Checkpoint) : ProgressSummary :=
  ⟨cp.processed_pages, cp.total_pages, cp.balloons_so_far.length, cp.last_update⟩

/-- The three possible outcomes of upload-and-decide (§6). -/
inductive UploadResponse where
  | cached (pages : Nat) (detections : Nat) (file_hash : String)
  | resumable (progress : ProgressSummary) (file_hash : String)
  | newJob (job_id : Nat)
deriving DecidableEq, Repr

/-- Modelled from the spec: the durable server stores plus the job-id
counter ("unique id per job for its lifetime; never reused", §3). -/
structure ServerState where
  cache : String → Option CacheEntry
  checkpoint : String → Option Checkpoint
  nextJobId : Nat

/-- Modelled from the spec: `clear(hash)` deletes the checkpoint (§4.3). -/
def clearCheckpoint (s : ServerState) (h : String) : ServerState :=
  { s with checkpoint := fun k => if k = h then none else s.checkpoint k }

/-- Modelled from the spec: the `/clear_ga_progress` endpoint; clearing
is idempotent and clearing an absent checkpoint is not an error (§4.3). -/
def clearGAProgress (s : ServerState) (h : String) :
    Except String ServerState :=
  Except.ok (clearCheckpoint s h)

def exceptIsOk : Except String ServerState → Bool
  | .ok _ => true
  | .error _ => false

/-- Modelled from the spec: `finalize(hash, page_count, detections)`
writes the immutable cache entry, then the checkpoint is deleted (§4.2,
§4.4 step 4). -/
def finalize (s : ServerState) (h : String) (page_count : Nat)
    (dets : List Balloon) : ServerState :=
  clearCheckpoint
    { s with
      cache := fun k => if k = h then some ⟨page_count, dets⟩ else s.cache k } h

/-- Modelled from the spec: the upload decision protocol (§4.6): compute
the hash, then answer `cached`, `resumable` or a fresh `job_id`, clearing
the checkpoint first when force-fresh is set. -/
def uploadDecide (s : ServerState) (h : String) (force : Bool) :
    UploadResponse × ServerState :=
  if force then
    let s1 := clearCheckpoint s h
    (.newJob s1.nextJobId, { s1 with nextJobId := s1.nextJobId + 1 })
  else
    match s.cache h with
    | some e => (.cached e.page_count e.detections.length h, s)
    | none =>
      match s.checkpoint h with
      | some cp => (.resumable (checkpointSummary cp) h, s)
      | none => (.newJob s.nextJobId, { s with nextJobId := s.nextJobId + 1 })

/-! ## Client handling of the upload response (part_000 `uploadGA`) -/

/-- The visible action the production `uploadGA` takes on each response
(part_000 lines 752-799). -/
inductive ClientUploadAction where
  | loadedCachedResults (pages : Nat) (detections : Nat)
  | showedResumeDialog (progress : ProgressSummary)
  | startedPolling (job_id : Nat)
deriving DecidableEq, Repr

/-- The `uploadGA` outcome: its action, the `ga_job_id` it leaves in
`localStorage`, and the job whose `pollJob` loop it starts. -/
structure ClientUploadOutcome where
  action : ClientUploadAction
  storedJobId : Option Nat
  pollingJob : Option Nat
deriving DecidableEq, Repr

/-- part_000 `uploadGA`: `cached` loads the finalized results (no
`setItem`, no `pollJob`); `resumable` opens the resume dialog (no job
yet); a `job_id` is stored and polled. -/
def clientHandleUpload : UploadResponse → ClientUploadOutcome
  | .cached p dct _ => ⟨.loadedCachedResults p dct, none, none⟩
  | .resumable pr _ => ⟨.showedResumeDialog pr, none, none⟩
  | .newJob id => ⟨.startedPolling id, some id, some id⟩

/-- The choice `showResumeDialog` resolves: the resume button, the fresh
button, or the close button resolving null. -/
inductive ResumeChoice where
  | resume
  | fresh
  | cancelDialog
deriving DecidableEq, Repr

inductive FollowUp where
  | resumeRequest
  | freshRequest
  | nothing
deriving DecidableEq, Repr

/-- The dispatch after the dialog in `uploadGA` (part_000 lines 777-784):
only an explicit resume or fresh choice issues a processing request. -/
def afterResumeDialog : ResumeChoice → FollowUp
  | .resume => .resumeRequest
  | .fresh => .freshRequest
  | .cancelDialog => .nothing

/-! ## Job state machine and the polling loops (C4) -/

/-- Modelled from the spec: the job states (§4.4). -/
inductive JobState where
  | queued
  | running
  | complete
  | cancelled
  | error
deriving DecidableEq, Repr

def isTerminal : JobState → Bool
  | .complete => true
  | .cancelled => true
  | .error => true
  | _ => false

/-- Modelled from the spec: the transitions of
`queued → running → {complete | cancelled | error}` (§4.4). -/
inductive JobStep : JobState → JobState → Prop where
  | start : JobStep .queued .running
  | finish : JobStep .running .complete
  | cancel : JobStep .running .cancelled
  | fail : JobStep .running .error

/-- Modelled from the spec: the status string `/job/status` reports. -/
def statusString : JobState → String
  | .queued => "queued"
  | .running => "running"
  | .complete => "complete"
  | .cancelled => "cancelled"
  | .error => "error"

/-- A `/job/status` payload as the client reads it. -/
structure JobStatusReport where
  status : String
  message : String
deriving DecidableEq, Repr

/-- The client polling loop state: whether the interval is live and the
`ga_job_id` in `localStorage`. -/
structure ClientPollState where
  polling : Bool
  storedJobId : Option Nat
deriving DecidableEq, Repr

inductive PollObservation where
  | completionLoad
  | cancellationNotice
  | errorAlert (message : String)
  | keepPolling
deriving DecidableEq, Repr

/-- One tick of the production `pollJob` (part_000 lines 1084-1143):
`complete`, `cancelled` and `error` each stop the interval, remove
`ga_job_id` and take their action; any other status only updates the
progress bar and keeps polling. -/
def pollStep (c : ClientPollState) (s : JobStatusReport) :
    ClientPollState × PollObservation :=
  if s.status = "complete" then (⟨false, none⟩, .completionLoad)
  else if s.status = "cancelled" then (⟨false, none⟩, .cancellationNotice)
  else if s.status = "error" then (⟨false, none⟩, .errorAlert s.message)
  else (c, .keepPolling)

/-- One tick of the legacy `pollJob` (part_000 lines 1753-1788): it
recognises `complete`, `cancelled` and `failed` — not `error`. -/
def pollStepLegacy (c : ClientPollState) (s : JobStatusReport) :
    ClientPollState × PollObservation :=
  if s.status = "complete" then (⟨false, none⟩, .completionLoad)
  else if s.status = "cancelled" then (⟨false, none⟩, .cancellationNotice)
  else if s.status = "failed" then
    (⟨false, none⟩, .errorAlert "GA processing failed")
  else (c, .keepPolling)

/-- Statement helper: the observation the claim expects for each
terminal state. -/
def terminalObservation : JobState → String → PollObservation
  | .complete, _ => .completionLoad
  | .cancelled, _ => .cancellationNotice
  | .error, m => .errorAlert m
  | _, _ => .keepPolling

/-! ## Unload-time cancellation (C5) -/

/-- Observable client state for the unload handlers: the stored
`ga_job_id`, the beacons sent with `navigator.sendBeacon` (by target
URL), and the keepalive cancellation fetches of the `visibilitychange`
handler. -/
structure UnloadObs where
  stored : Option Nat
  beacons : List String
  fetches : List String
deriving DecidableEq, Repr

def cancelUrl (id : Nat) : String := "/job/cancel/" ++ toString id

/-- The `beforeunload` handler (part_000 lines 166-184) and the
`pagehide` handler (script.js lines 996-1002): if a job id is stored,
send one beacon to `/job/cancel/{id}` and remove the id. -/
def beaconCancelHandler (o : UnloadObs) : UnloadObs :=
  match o.stored with
  | some id => ⟨none, o.beacons ++ [cancelUrl id], o.fetches⟩
  | none => o

/-- The `visibilitychange` handler (script.js lines 982-994): when the
document becomes hidden with a job id stored, issue a keepalive
cancellation fetch; the stored id is kept. -/
def visibilityHandler (hidden : Bool) (o : UnloadObs) : UnloadObs :=
  if hidden then
    match o.stored with
    | some id => { o with fetches := o.fetches ++ [cancelUrl id] }
    | none => o
  else o

inductive UnloadEvent where
  | beforeunload
  | pagehide
  | visibilityHidden
  | visibilityVisible
deriving DecidableEq, Repr

def unloadStep (o : UnloadObs) : UnloadEvent → UnloadObs
  | .beforeunload => beaconCancelHandler o
  | .pagehide => beaconCancelHandler o
  | .visibilityHidden => visibilityHandler true o
  | .visibilityVisible => visibilityHandler false o

/-- The handlers fired during a page teardown, in the order the browser
delivers them. -/
def runUnload (es : List UnloadEvent) (o : UnloadObs) : UnloadObs :=
  es.foldl unloadStep o

/-! ## Forced fresh run (C6) -/

inductive ClientRequest where
  | clearProgressReq (file_hash : String)
  | uploadGAForce
deriving DecidableEq, Repr

/-- `startFreshGAProcessing` (part_000 lines 979-1027): first await
`POST /clear_ga_progress?file_hash=...` (a failure is caught and only
logged), then await `POST /upload/ga?force=true`, storing and polling
the returned job id.  Returns the requests in the order they are sent,
the resulting server state, and the job id obtained. -/
def startFreshGAProcessing (s : ServerState) (h : String) :
    List ClientRequest × ServerState × Option Nat :=
  let s1 := match clearGAProgress s h with
    | .ok t => t
    | .error _ => s
  let r := uploadDecide s1 h true
  match r.1 with
  | .newJob id => ([.clearProgressReq h, .uploadGAForce], r.2, some id)
  | _ => ([.clearProgressReq h, .uploadGAForce], r.2, none)

/-! ## Concrete scenario states -/

def sampleEntry : CacheEntry :=
  ⟨3, [⟨some "12", some 1, some bboxA⟩, ⟨some "7", some 2, some bboxA⟩,
    ⟨some "12", some 3, some bboxA⟩]⟩

def sampleCheckpoint : Checkpoint := ⟨2, 5, [⟨some "7", some 2, some bboxA⟩], 1700⟩

def serverWithCache : ServerState :=
  ⟨fun k => if k = "h1" then some sampleEntry else none, fun _ => none, 10⟩

def serverWithCheckpoint : ServerState :=
  ⟨fun _ => none, fun k => if k = "h2" then some sampleCheckpoint else none, 20⟩

def serverEmpty : ServerState := ⟨fun _ => none, fun _ => none, 30⟩

/-- C2: without the force-fresh flag the upload-and-decide protocol
yields exactly one of the three outcomes and the production client acts
on exactly that one: `cached` loads the finalized results and creates no
job (server state unchanged, nothing stored or polled); `resumable`
presents the checkpoint summary and creates no job until the caller
chooses resume or fresh (closing the dialog issues nothing); otherwise a
fresh `job_id` is returned, stored, and its polling begins. -/
theorem c2_upload_and_decide
    (s s2 s3 : ServerState) (h h2 h3 : String) (e : CacheEntry)
    (cp : Checkpoint)
    (hc : s.cache h = some e)
    (h2c : s2.cache h2 = none) (h2p : s2.checkpoint h2 = some cp)
    (h3c : s3.cache h3 = none) (h3p : s3.checkpoint h3 = none) :
    (uploadDecide s h false
        = (.cached e.page_count e.detections.length h, s)
      ∧ clientHandleUpload (uploadDecide s h false).1
        = ⟨.loadedCachedResults e.page_count e.detections.length, none, none⟩)
    ∧ (uploadDecide s2 h2 false
        = (.resumable (checkpointSummary cp) h2, s2)
      ∧ clientHandleUpload (uploadDecide s2 h2 false).1
        = ⟨.showedResumeDialog (checkpointSummary cp), none, none⟩
      ∧ afterResumeDialog .cancelDialog = .nothing)
    ∧ ((uploadDecide s3 h3 false).1 = .newJob s3.nextJobId
      ∧ (uploadDecide s3 h3 false).2.nextJobId = s3.nextJobId + 1
      ∧ clientHandleUpload (uploadDecide s3 h3 false).1
        = ⟨.startedPolling s3.nextJobId, some s3.nextJobId,
            some s3.nextJobId⟩) := by
  refine ⟨⟨?_, ?_⟩, ⟨?_, ?_, rfl⟩, ⟨?_, ?_, ?_⟩⟩ <;>
    simp [uploadDecide, clientHandleUpload, hc, h2c, h2p, h3c, h3p]

/-- C2 witness: the three outcomes on concrete server states. -/
theorem c2_upload_and_decide_witness :
    serverWithCache.cache "h1" = some sampleEntry
    ∧ serverWithCheckpoint.cache "h2" = none
    ∧ serverWithCheckpoint.checkpoint "h2" = some sampleCheckpoint
    ∧ serverEmpty.cache "h3" = none
    ∧ serverEmpty.checkpoint "h3" = none
    ∧ clientHandleUpload (uploadDecide serverWithCache "h1" false).1
      = ⟨.loadedCachedResults 3 3, none, none⟩
    ∧ clientHandleUpload (uploadDecide serverWithCheckpoint "h2" false).1
      = ⟨.showedResumeDialog ⟨2, 5, 1, 1700⟩, none, none⟩
    ∧ clientHandleUpload (uploadDecide serverEmpty "h3" false).1
      = ⟨.startedPolling 30, some 30, some 30⟩ :=
  ⟨by decide, by decide, by decide, by decide, by decide,
    (c2_upload_and_decide serverWithCache serverWithCheckpoint serverEmpty
      "h1" "h2" "h3" sampleEntry sampleCheckpoint (by decide) (by decide)
      (by decide) (by decide) (by decide)).1.2,
    (c2_upload_and_decide serverWithCache serverWithCheckpoint serverEmpty
      "h1" "h2" "h3" sampleEntry sampleCheckpoint (by decide) (by decide)
      (by decide) (by decide) (by decide)).2.1.2.1,
    (c2_upload_and_decide serverWithCache serverWithCheckpoint serverEmpty
      "h1" "h2" "h3" sampleEntry sampleCheckpoint (by decide) (by decide)
      (by decide) (by decide) (by decide)).2.2.2.2⟩

/-- C3: after a prior run completed (`finalize` wrote the cache entry for
the content hash of the bytes), re-uploading byte-identical content
without the force flag yields `cached` on that upload and again on the
next one, with the identical summary (`page_count`, detection count) each
time; the server state is unchanged (no job created) and the client's
cached path stores and polls nothing. -/
theorem c3_cache_idempotent (s : ServerState) (bytes : List Nat)
    (pc : Nat) (dets : List Balloon) :
    (uploadDecide (finalize s (fileHash bytes) pc dets)
        (fileHash bytes) false).1
      = .cached pc dets.length (fileHash bytes)
    ∧ (uploadDecide (finalize s (fileHash bytes) pc dets)
        (fileHash bytes) false).2
      = finalize s (fileHash bytes) pc dets
    ∧ (uploadDecide
        (uploadDecide (finalize s (fileHash bytes) pc dets)
          (fileHash bytes) false).2 (fileHash bytes) false).1
      = .cached pc dets.length (fileHash bytes)
    ∧ clientHandleUpload
        (uploadDecide (finalize s (fileHash bytes) pc dets)
          (fileHash bytes) false).1
      = ⟨.loadedCachedResults pc dets.length, none, none⟩ := by
  have hcache : (finalize s (fileHash bytes) pc dets).cache (fileHash bytes)
      = some ⟨pc, dets⟩ := by
    simp [finalize, clearCheckpoint]
  refine ⟨?_, ?_, ?_, ?_⟩ <;>
    simp [uploadDecide, clientHandleUpload, hcache]

/-- C4 counterexample: `error` is a terminal state, but the legacy
`pollJob` (part_000 lines 1753-1788) checks for `failed`, so on a status
poll reporting `error` it neither stops the loop nor removes the stored
job id nor takes any action — the claim as stated over the cited
handlers fails at this input. -/
theorem c4_counterexample :
    isTerminal JobState.error = true
    ∧ pollStepLegacy ⟨true, some 7⟩ ⟨statusString JobState.error, "boom"⟩
      = (⟨true, some 7⟩, .keepPolling) := by
  refine ⟨rfl, ?_⟩
  decide

/-- C4 (amended): the set of terminal job states is exactly
{complete, cancelled, error}; no transition leaves a terminal state; and
every status poll reporting a terminal state is observed by the
production `pollJob` (part_000 lines 1084-1143), which stops the polling
loop, removes the stored job id and takes the corresponding completion,
cancellation, or error action.  The legacy poller recognises `failed`
instead of `error` (see the counterexample), so the claim holds of the
production poller only. -/
theorem c4_terminal_states (a b t : JobState) (hab : JobStep a b)
    (ht : isTerminal t = true) (c : ClientPollState) (r : JobStatusReport)
    (hr : r.status = statusString t) :
    isTerminal a = false
    ∧ (t = .complete ∨ t = .cancelled ∨ t = .error)
    ∧ isTerminal JobState.complete = true
    ∧ isTerminal JobState.cancelled = true
    ∧ isTerminal JobState.error = true
    ∧ isTerminal JobState.queued = false
    ∧ isTerminal JobState.running = false
    ∧ pollStep c r = (⟨false, none⟩, terminalObservation t r.message) := by
  refine ⟨?_, ?_, rfl, rfl, rfl, rfl, rfl, ?_⟩
  · cases hab <;> rfl
  · cases t <;> simp_all [isTerminal]
  · obtain ⟨st, msg⟩ := r
    simp only at hr
    subst hr
    cases t <;> simp_all [isTerminal, statusString, pollStep,
      terminalObservation]

/-- C4 witness: a start transition out of `queued` and an `error` report
hitting the production poller. -/
theorem c4_terminal_states_witness :
    isTerminal JobState.error = true
    ∧ JobStatusReport.status ⟨statusString JobState.error, "boom"⟩
        = statusString JobState.error
    ∧ (isTerminal JobState.queued = false
      ∧ (JobState.error = .complete ∨ JobState.error = .cancelled
          ∨ JobState.error = .error)
      ∧ isTerminal JobState.complete = true
      ∧ isTerminal JobState.cancelled = true
      ∧ isTerminal JobState.error = true
      ∧ isTerminal JobState.queued = false
      ∧ isTerminal JobState.running = false
      ∧ pollStep ⟨true, some 5⟩ ⟨statusString JobState.error, "boom"⟩
        = (⟨false, none⟩,
            terminalObservation JobState.error
              (JobStatusReport.message
                ⟨statusString JobState.error, "boom"⟩))) :=
  ⟨rfl, rfl,
    c4_terminal_states JobState.queued JobState.running JobState.error
      JobStep.start rfl ⟨true, some 5⟩ ⟨statusString JobState.error, "boom"⟩
      rfl⟩

/-! ## C5 lemmas -/

theorem runUnload_stored_none (es : List UnloadEvent) :
    ∀ o : UnloadObs, o.stored = none → runUnload es o = o := by
  induction es with
  | nil => intro o _; rfl
  | cons e es ih =>
    intro o ho
    have hstep : unloadStep o e = o := by
      obtain ⟨st, bs, fs⟩ := o
      simp only at ho
      subst ho
      cases e <;> simp [unloadStep, beaconCancelHandler, visibilityHandler]
    show runUnload es (unloadStep o e) = o
    rw [hstep]
    exact ih o ho

theorem runUnload_some (es : List UnloadEvent) :
    ∀ (bs fs : List String) (id : Nat),
    (UnloadEvent.beforeunload ∈ es ∨ UnloadEvent.pagehide ∈ es) →
    (runUnload es ⟨some id, bs, fs⟩).stored = none
    ∧ (runUnload es ⟨some id, bs, fs⟩).beacons = bs ++ [cancelUrl id] := by
  induction es with
  | nil => intro bs fs id hev; simp at hev
  | cons e es ih =>
    intro bs fs id hev
    cases e
    case beforeunload =>
      have : runUnload (UnloadEvent.beforeunload :: es) ⟨some id, bs, fs⟩
          = ⟨none, bs ++ [cancelUrl id], fs⟩ := by
        show runUnload es (unloadStep ⟨some id, bs, fs⟩ .beforeunload)
          = ⟨none, bs ++ [cancelUrl id], fs⟩
        exact runUnload_stored_none es _ rfl
      rw [this]
      exact ⟨rfl, rfl⟩
    case pagehide =>
      have : runUnload (UnloadEvent.pagehide :: es) ⟨some id, bs, fs⟩
          = ⟨none, bs ++ [cancelUrl id], fs⟩ := by
        show runUnload es (unloadStep ⟨some id, bs, fs⟩ .pagehide)
          = ⟨none, bs ++ [cancelUrl id], fs⟩
        exact runUnload_stored_none es _ rfl
      rw [this]
      exact ⟨rfl, rfl⟩
    case visibilityHidden =>
      have hev' : UnloadEvent.beforeunload ∈ es ∨ UnloadEvent.pagehide ∈ es := by
        simpa using hev
      show (runUnload es (unloadStep ⟨some id, bs, fs⟩ .visibilityHidden)).stored
          = none
        ∧ (runUnload es
            (unloadStep ⟨some id, bs, fs⟩ .visibilityHidden)).beacons
          = bs ++ [cancelUrl id]
      exact ih bs (fs ++ [cancelUrl id]) id hev'
    case visibilityVisible =>
      have hev' : UnloadEvent.beforeunload ∈ es ∨ UnloadEvent.pagehide ∈ es := by
        simpa using hev
      show (runUnload es (unloadStep ⟨some id, bs, fs⟩ .visibilityVisible)).stored
          = none
        ∧ (runUnload es
            (unloadStep ⟨some id, bs, fs⟩ .visibilityVisible)).beacons
          = bs ++ [cancelUrl id]
      exact ih bs fs id hev'

/-- C5: if the page tears down while a job id is stored — some
beacon-sending unload handler (`beforeunload` or `pagehide`) fires, in
any order and possibly alongside the `visibilitychange` handler — then
exactly one cancellation beacon is sent, to `/job/cancel/{id}`, and the
stored job id is removed; starting with no stored job id, the teardown
handlers send nothing at all. -/
theorem c5_unload_cancellation (es : List UnloadEvent) (id : Nat)
    (o : UnloadObs) (ho : o.stored = none)
    (hev : UnloadEvent.beforeunload ∈ es ∨ UnloadEvent.pagehide ∈ es) :
    (runUnload es ⟨some id, [], []⟩).beacons = [cancelUrl id]
    ∧ (runUnload es ⟨some id, [], []⟩).stored = none
    ∧ runUnload es o = o := by
  have h := runUnload_some es [] [] id hev
  exact ⟨by simpa using h.2, h.1, runUnload_stored_none es o ho⟩

/-- C5 witness: a teardown where the document is first hidden, then
`beforeunload` and `pagehide` both fire, with job id 9 stored. -/
theorem c5_unload_cancellation_witness :
    UnloadObs.stored ⟨none, [], []⟩ = none
    ∧ (UnloadEvent.beforeunload
        ∈ [UnloadEvent.visibilityHidden, UnloadEvent.beforeunload,
            UnloadEvent.pagehide]
      ∨ UnloadEvent.pagehide
        ∈ [UnloadEvent.visibilityHidden, UnloadEvent.beforeunload,
            UnloadEvent.pagehide])
    ∧ ((runUnload [UnloadEvent.visibilityHidden, UnloadEvent.beforeunload,
          UnloadEvent.pagehide] ⟨some 9, [], []⟩).beacons = [cancelUrl 9]
      ∧ (runUnload [UnloadEvent.visibilityHidden, UnloadEvent.beforeunload,
          UnloadEvent.pagehide] ⟨some 9, [], []⟩).stored = none
      ∧ runUnload [UnloadEvent.visibilityHidden, UnloadEvent.beforeunload,
          UnloadEvent.pagehide] ⟨none, [], []⟩ = ⟨none, [], []⟩) :=
  ⟨rfl, by decide,
    c5_unload_cancellation
      [UnloadEvent.visibilityHidden, UnloadEvent.beforeunload,
        UnloadEvent.pagehide] 9 ⟨none, [], []⟩ rfl (by decide)⟩

/-! ## C6 -/

theorem clearCheckpoint_idem (s : ServerState) (h : String) :
    clearCheckpoint (clearCheckpoint s h) h = clearCheckpoint s h := by
  simp only [clearCheckpoint]
  congr 1
  funext k
  by_cases hk : k = h <;> simp [hk]

/-- C6: a forced fresh run issues the checkpoint-clear request strictly
before the force upload (positions 0 and 1 of the request sequence);
clearing is idempotent and clearing an absent checkpoint is not an error
(the endpoint always answers ok); at the moment the force upload is
processed the checkpoint for the hash is gone; and the run ends with a
fresh job id. -/
theorem c6_fresh_clears_first (s : ServerState) (h : String) :
    (startFreshGAProcessing s h).1
      = [ClientRequest.clearProgressReq h, ClientRequest.uploadGAForce]
    ∧ ((startFreshGAProcessing s h).1)[0]?
      = some (ClientRequest.clearProgressReq h)
    ∧ ((startFreshGAProcessing s h).1)[1]? = some ClientRequest.uploadGAForce
    ∧ exceptIsOk (clearGAProgress s h) = true
    ∧ (clearCheckpoint s h).checkpoint h = none
    ∧ clearCheckpoint (clearCheckpoint s h) h = clearCheckpoint s h
    ∧ (startFreshGAProcessing s h).2.2 = some s.nextJobId := by
  refine ⟨rfl, rfl, rfl, rfl, ?_, clearCheckpoint_idem s h, rfl⟩
  simp [clearCheckpoint]

end PanelApp
